import Mathlib

/-!
# Verification of the newtab train-hop station core

A shallow embedding of the decision logic of the train-hop readiness
pipeline: the file-sync analyzer (`compareNewtabFtlFileInfos`), the
release-schedule date derivation (`getBetaAndReleaseDates`), the
identifier resolver with its persistent cache (`getHgSha` / `getGitSha`),
the CI jobs-data aggregator (`transformJobsData`), the locale classifier
(`LocalesResults.#localesReport`), and the orchestrator's date-prompt
abort path (`TrainCheckApp.#checkTrainStatus` / `#promptForDate`).

Calendar dates are embedded as integer day numbers (days since
1970-01-01); timestamps as integer milliseconds since the epoch.  On
`Int` the `/` and `%` operators are Euclidean division and remainder,
which for the positive divisors used here coincide with floor division
and the JavaScript `%` on nonnegative operands.
-/

/-! ## Calendar-date model

`Temporal.PlainDate` values are embedded as day numbers (days since
1970-01-01).  `daysFromCivil` is the standard civil-calendar conversion,
used to name concrete dates; `dayOfWeek` matches Temporal's ISO
convention, Monday = 1 .. Sunday = 7 (1970-01-01 was a Thursday). -/

/-- Day number (days since 1970-01-01) of the civil date y-m-d. -/
def daysFromCivil (y m d : Int) : Int :=
  let yy : Int := if m ≤ 2 then y - 1 else y
  let era : Int := yy / 400
  let yoe : Int := yy - era * 400
  let mp : Int := (m + 9) % 12
  let doy : Int := (153 * mp + 2) / 5 + d - 1
  let doe : Int := yoe * 365 + yoe / 4 - yoe / 100 + doy
  era * 146097 + doe - 719468

/-- ISO day of week of a day number, Monday = 1 .. Sunday = 7
(the `Temporal.PlainDate.dayOfWeek` convention). -/
def dayOfWeek (z : Int) : Int :=
  (z + 3) % 7 + 1

/-! ## FileSyncAnalyzer: `compareNewtabFtlFileInfos` (background script)

The two file-info records enter as epoch-millisecond timestamps (the
result of `new Date(info.lastModifiedDate).getTime()`). -/

/-- Milliseconds per day, `1000 * 60 * 60 * 24` from the source. -/
def msPerDay : Int := 1000 * 60 * 60 * 24

/-- The comparison result: `status`, human-readable `message`, `daysDiff`. -/
structure SyncVerdict where
  status : String
  message : String
  daysDiff : Int
  deriving DecidableEq

/-- Embedding of `compareNewtabFtlFileInfos`: `timeDiff` is the raw
millisecond difference, `daysDiff` is `Math.round(timeDiff / msPerDay)`
(floor of the quotient plus one half), and the status is chosen from the
sign of `timeDiff`, not of `daysDiff`. -/
def compareNewtabFtlFileInfos (mainMs webextMs : Int) : SyncVerdict :=
  let timeDiff : Int := mainMs - webextMs
  let daysDiff : Int := (2 * timeDiff + msPerDay) / (2 * msPerDay)
  if 0 < timeDiff then
    { status := "main-newer"
      message := "Main newtab.ftl is " ++ toString daysDiff.natAbs ++
        " day(s) newer than webext-glue version"
      daysDiff := daysDiff }
  else if timeDiff < 0 then
    { status := "webext-newer"
      message := "Webext-glue newtab.ftl is " ++ toString daysDiff.natAbs ++
        " day(s) newer than main version"
      daysDiff := daysDiff }
  else
    { status := "in-sync", message := "Files are in sync", daysDiff := daysDiff }

/-! ## ScheduleGateway: release-start derivation (`getBetaAndReleaseDates`)

Only the date arithmetic of the release branch is embedded: the fetched
`beta_1` calendar date is walked back to the most recent Monday. -/

/-- Embedding of the release-start derivation:
`releaseStartDateObj.subtract({ days: (dayOfWeek + 6) % 7 })`. -/
def releaseStartFromBeta1 (beta1 : Int) : Int :=
  beta1 - (dayOfWeek beta1 + 6) % 7

/-! ## LocaleClassifier: `LocalesResults.#localesReport`

The classification loop of `locales-results.mjs` (lines 55-72).  Dates
are day numbers.  Two JavaScript subtleties are embedded faithfully:
`Temporal.PlainDate.compare(introducedDate, betaStart)` is used as a
*truthy* value, so it holds whenever the two dates differ (compare
returns -1 or 1), not only when `introducedDate` is on or after
`betaStart`; and `Temporal.Duration.compare(now.since(betaStart),
{ weeks: 3 }, { relativeTo: now }) == 1` holds exactly when
`now - betaStart` exceeds 21 days. -/

/-- The condition under which a fluent key is pushed onto
`missingStrings` (source lines 59-67): introduced strictly before
`releaseStart`, or introduced on a date different from `betaStart` while
more than three weeks have elapsed from `betaStart` to `now`. -/
def IsMissingString (introduced releaseStart betaStart now : Int) : Prop :=
  introduced < releaseStart ∨ (introduced ≠ betaStart ∧ 21 < now - betaStart)

instance decIsMissingString (i r b n : Int) : Decidable (IsMissingString i r b n) := by
  unfold IsMissingString
  infer_instance

/-- The `for (let fluentKey of missingOrPendingStrings)` loop: partitions
the key list, in order, into `(missingStrings, pendingStrings)`. -/
def classifyStrings (msgDates : String → Int) (releaseStart betaStart now : Int) :
    List String → List String × List String
  | [] => ([], [])
  | k :: ks =>
    let rest := classifyStrings msgDates releaseStart betaStart now ks
    if IsMissingString (msgDates k) releaseStart betaStart now then
      (k :: rest.1, rest.2)
    else
      (rest.1, k :: rest.2)

/-- The locales report: per locale, the value of
`localesReport.locales[key].missing?.["browser/newtab/newtab.ftl"]`
(`none` when the optional-chain lookup is `undefined`), plus the global
`message_dates` table mapping each fluent key to its introduction date. -/
structure LocalesReport where
  locales : List (String × Option (List String))
  message_dates : String → Int

/-- The per-locale output of `#localesReport`: locales whose lookup was
`undefined` (falsy) render nothing and are dropped; any present list —
including an empty one, since an empty array is truthy — yields an entry
with its partition into missing and pending strings. -/
def localesReport (rep : LocalesReport) (releaseStart betaStart now : Int) :
    List (String × List String × List String) :=
  rep.locales.filterMap fun p =>
    p.2.map fun keys =>
      (p.1, classifyStrings rep.message_dates releaseStart betaStart now keys)

/-- The classification condition as the specification words it (claim C2):
introduced strictly before `releaseStart`, or introduced *on or after*
`betaStart` while more than three weeks have elapsed from `betaStart` to
`now`.  Kept separate so it can be compared against the source condition
`IsMissingString`. -/
def specMissingCondition (introduced releaseStart betaStart now : Int) : Prop :=
  introduced < releaseStart ∨ (betaStart ≤ introduced ∧ 21 < now - betaStart)

instance decSpecMissingCondition (i r b n : Int) :
    Decidable (specMissingCondition i r b n) := by
  unfold specMissingCondition
  infer_instance

/-! ## IdentifierResolver: `getHgSha` / `getGitSha` (background script)

The `browser.storage.local` key-value store is embedded as an
association list with last-write-wins lookup; the conversion service is
an oracle `String → String`; each call returns the resolved value, the
updated store, and the number of network fetches it performed.  The JS
cache check `if (result[cacheKey])` is a truthiness test: a cached empty
string counts as a miss. -/

/-- The persistent key-value store (`browser.storage.local`). -/
structure Store where
  entries : List (String × String)

/-- `browser.storage.local.get(key)`: the most recently written value. -/
def Store.get (s : Store) (k : String) : Option String :=
  (s.entries.find? fun p => p.1 == k).map Prod.snd

/-- `browser.storage.local.set({ [key]: v })`. -/
def Store.set (s : Store) (k v : String) : Store :=
  ⟨(k, v) :: s.entries⟩

/-- JavaScript truthiness of `result[cacheKey]`: present and non-empty. -/
def truthyOpt : Option String → Bool
  | some v => v != ""
  | none => false

/-- The result of one resolver call: the value returned, the store after
the call, and how many network fetches the call made. -/
structure ResolveOutcome where
  value : String
  store : Store
  networkCalls : Nat

/-- Embedding of `getHgSha`: check the cache under `git2hg:<gitSha>`;
on a truthy hit return it with no fetch; otherwise fetch from the
conversion service and write the result to the cache before returning. -/
def getHgSha (network : String → String) (s : Store) (gitSha : String) :
    ResolveOutcome :=
  let cacheKey := "git2hg:" ++ gitSha
  let cached := s.get cacheKey
  if truthyOpt cached then
    ⟨cached.getD "", s, 0⟩
  else
    let hgSha := network gitSha
    ⟨hgSha, s.set cacheKey hgSha, 1⟩

/-- Embedding of `getGitSha`: the same protocol in the other direction,
under `hg2git:<hgSha>`. -/
def getGitSha (network : String → String) (s : Store) (hgSha : String) :
    ResolveOutcome :=
  let cacheKey := "hg2git:" ++ hgSha
  let cached := s.get cacheKey
  if truthyOpt cached then
    ⟨cached.getD "", s, 0⟩
  else
    let gitSha := network hgSha
    ⟨gitSha, s.set cacheKey gitSha, 1⟩

/-! ## CiDataAggregator: `transformJobsData` (background script)

The jobs payload is `{ results, job_property_names }`; `none` models an
absent (undefined/null, falsy) field.  An empty array is truthy in
JavaScript, so `some []` passes the guard and maps to `[]`.  Each row is
rebuilt by `propertyNames.forEach((name, index) => obj[name] =
row[index])`; an out-of-range index reads `undefined`, embedded as
`none`. -/

/-- The `propertyNames.forEach((propertyName, index) => ...)` loop,
carrying the running index: pairs each field name with the row value at
its index (`none` past the end of the row). -/
def buildJobObject {α : Type} (row : List α) : Nat → List String →
    List (String × Option α)
  | _, [] => []
  | i, p :: ps => (p, row.get? i) :: buildJobObject row (i + 1) ps

/-- Embedding of `transformJobsData`: absent `results` or absent
`job_property_names` yield `[]`; otherwise each result row is mapped to
its named record. -/
def transformJobsData {α : Type} (results : Option (List (List α)))
    (propertyNames : Option (List String)) : List (List (String × Option α)) :=
  match results, propertyNames with
  | some rows, some ps => rows.map fun row => buildJobObject row 0 ps
  | _, _ => []

/-! ## Orchestrator abort path: `TrainCheckApp.#checkTrainStatus`

`#promptForDate` is a `while (true)` loop around the operator prompt; it
is embedded against a finite script of operator responses (`none` =
cancel), returning `none` when the script is exhausted with the loop
still running.  `#checkTrainStatus` is embedded from the point where
`revisionData` has arrived: it patches a `null` beta or release start
date via the prompt, and on cancel stores an error result that carries
the resolved identifiers and no revision data — so the locales report
(and with it the locale classifier) is never produced. -/

/-- The `^\d{4}-\d{2}-\d{2}$` test of `#promptForDate` followed by the
`new Date(dateInput + "T00:00:00Z")` validity check: four digits, dash,
two digits, dash, two digits, with an in-range month and day. -/
def isValidDate (s : String) : Bool :=
  match s.data with
  | [y1, y2, y3, y4, h1, m1, m2, h2, d1, d2] =>
    y1.isDigit && y2.isDigit && y3.isDigit && y4.isDigit && h1 == '-' &&
    m1.isDigit && m2.isDigit && h2 == '-' && d1.isDigit && d2.isDigit &&
    (let y : Nat := 1000 * (y1.toNat - 48) + 100 * (y2.toNat - 48) +
       10 * (y3.toNat - 48) + (y4.toNat - 48)
     let m : Nat := 10 * (m1.toNat - 48) + (m2.toNat - 48)
     let d : Nat := 10 * (d1.toNat - 48) + (d2.toNat - 48)
     let leap : Bool := (y % 4 == 0 && y % 100 != 0) || y % 400 == 0
     let dim : Nat :=
       if m == 2 then (if leap then 29 else 28)
       else if m == 4 || m == 6 || m == 9 || m == 11 then 30
       else 31
     decide (1 ≤ m) && decide (m ≤ 12) && decide (1 ≤ d) && decide (d ≤ dim))
  | _ => false

/-- The `#promptForDate` loop against a script of operator responses:
`some none` = the operator cancelled (the loop returns `null`),
`some (some s)` = a valid date was accepted, `none` = the script ran out
with the loop still re-prompting. -/
def promptForDate : List (Option String) → Option (Option String)
  | [] => none
  | none :: _ => some none
  | some s :: rest => if isValidDate s then some (some s) else promptForDate rest

/-- The fields of `revisionData` that `#checkTrainStatus` inspects. -/
structure RevisionData where
  betaStartDate : Option String
  releaseStartDate : Option String

/-- The `this.results` object stored by `#checkTrainStatus`: on the
abort path `revisionData` is absent (`none`), so nothing downstream —
in particular the locales report and its classifier — can run. -/
structure TrainResults where
  sha : String
  hgSha : String
  status : String
  revisionData : Option RevisionData

/-- The release-date half of `#checkTrainStatus`, entered once a beta
start date `b` is on hand. -/
def checkTrainStatusWithBeta (gitSha hgSha b : String)
    (releaseStartDate : Option String) (releaseResponses : List (Option String)) :
    Option TrainResults :=
  match releaseStartDate with
  | none =>
    match promptForDate releaseResponses with
    | none => none
    | some none =>
      some ⟨gitSha, hgSha, "Error: Release start date required for locales analysis",
        none⟩
    | some (some r) =>
      some ⟨gitSha, hgSha, "Ready for implementation", some ⟨some b, some r⟩⟩
  | some r =>
    some ⟨gitSha, hgSha, "Ready for implementation", some ⟨some b, some r⟩⟩

/-- Embedding of `#checkTrainStatus` from the point where identifiers
are resolved and `revisionData` has arrived: patch a `null`
`betaStartDate` via the prompt (cancel ⇒ error result carrying the
identifiers), then handle `releaseStartDate` the same way, then store
the full results. -/
def checkTrainStatus (gitSha hgSha : String) (rd : RevisionData)
    (betaResponses releaseResponses : List (Option String)) :
    Option TrainResults :=
  match rd.betaStartDate with
  | none =>
    match promptForDate betaResponses with
    | none => none
    | some none =>
      some ⟨gitSha, hgSha, "Error: Beta start date required for locales analysis",
        none⟩
    | some (some b) =>
      checkTrainStatusWithBeta gitSha hgSha b rd.releaseStartDate releaseResponses
  | some b =>
    checkTrainStatusWithBeta gitSha hgSha b rd.releaseStartDate releaseResponses

/-! ## Theorems -/

/-- Helper: the rounded day delta is nonnegative for a positive
millisecond difference. -/
theorem daysDiff_nonneg {t : Int} (h : 0 < t) :
    0 ≤ (2 * t + msPerDay) / (2 * msPerDay) := by
  unfold msPerDay
  omega

/-- Helper: the rounded day delta is nonpositive for a negative
millisecond difference. -/
theorem daysDiff_nonpos {t : Int} (h : t < 0) :
    (2 * t + msPerDay) / (2 * msPerDay) ≤ 0 := by
  unfold msPerDay
  omega

/-- C1 (amended). `compareNewtabFtlFileInfos` returns exactly one of the
three statuses, each characterised by the sign of the raw millisecond
difference; `main-newer` implies `daysDiff ≥ 0`, `webext-newer` implies
`daysDiff ≤ 0`, and equal timestamps give `in-sync` with `daysDiff = 0`. -/
theorem compareNewtabFtlFileInfos_status_sign (mainMs webextMs : Int) :
    ((compareNewtabFtlFileInfos mainMs webextMs).status = "main-newer" ↔
      webextMs < mainMs) ∧
    ((compareNewtabFtlFileInfos mainMs webextMs).status = "webext-newer" ↔
      mainMs < webextMs) ∧
    ((compareNewtabFtlFileInfos mainMs webextMs).status = "in-sync" ↔
      mainMs = webextMs) ∧
    (webextMs < mainMs → 0 ≤ (compareNewtabFtlFileInfos mainMs webextMs).daysDiff) ∧
    (mainMs < webextMs → (compareNewtabFtlFileInfos mainMs webextMs).daysDiff ≤ 0) ∧
    (mainMs = webextMs → (compareNewtabFtlFileInfos mainMs webextMs).daysDiff = 0) := by
  simp only [compareNewtabFtlFileInfos]
  split_ifs with h1 h2
  · refine ⟨by simp; omega, by simp; omega, by simp; omega, ?_, ?_, ?_⟩
    · intro _
      exact daysDiff_nonneg h1
    · omega
    · omega
  · refine ⟨by simp; omega, by simp; omega, by simp; omega, ?_, ?_, ?_⟩
    · omega
    · intro _
      exact daysDiff_nonpos h2
    · omega
  · refine ⟨by simp; omega, by simp; omega, by simp; omega, ?_, ?_, ?_⟩
    · omega
    · omega
    · intro h
      subst h
      simp [msPerDay]

/-- Witness for C1: two timestamps exactly two days apart classify as
`main-newer` with a nonnegative day delta. -/
theorem compareNewtabFtlFileInfos_status_sign_witness :
    0 ≤ (compareNewtabFtlFileInfos 172800000 0).daysDiff :=
  (compareNewtabFtlFileInfos_status_sign 172800000 0).2.2.2.1 (by decide)

/-- Counterexample for C1 as stated: records one hour apart are
classified `main-newer`, yet the rounded day delta is `0` — so
`main-newer` does not imply `daysDiff > 0`, and `daysDiff = 0` does not
imply `in-sync`. -/
theorem compareNewtabFtlFileInfos_hour_gap :
    (compareNewtabFtlFileInfos 3600000 0).status = "main-newer" ∧
    (compareNewtabFtlFileInfos 3600000 0).daysDiff = 0 := by
  decide

/-- C6. The derived release start equals `beta_1` minus
`(dayOfWeek + 6) % 7` days, and it is the most recent Monday on or before
`beta_1`: it is a Monday, is at most `beta_1`, and dominates every Monday
`m ≤ beta_1`; concretely `2024-03-18` (a Monday) maps to itself and
`2024-03-20` (a Wednesday) maps back to `2024-03-18`. -/
theorem releaseStartFromBeta1_most_recent_monday (z m : Int)
    (hm : dayOfWeek m = 1) (hle : m ≤ z) :
    releaseStartFromBeta1 z = z - (dayOfWeek z + 6) % 7 ∧
    dayOfWeek (releaseStartFromBeta1 z) = 1 ∧
    releaseStartFromBeta1 z ≤ z ∧
    m ≤ releaseStartFromBeta1 z ∧
    releaseStartFromBeta1 (daysFromCivil 2024 3 18) = daysFromCivil 2024 3 18 ∧
    releaseStartFromBeta1 (daysFromCivil 2024 3 20) = daysFromCivil 2024 3 18 := by
  have h0 : 0 ≤ (z + 3) % 7 := Int.emod_nonneg _ (by decide)
  have h1 : (z + 3) % 7 < 7 := Int.emod_lt_of_pos _ (by decide)
  have h2 : (z + 3) % 7 + 7 * ((z + 3) / 7) = z + 3 := Int.emod_add_ediv _ _
  have h3 : ((z + 3) % 7 + 1 + 6) % 7 = (z + 3) % 7 := by
    have h4 : (z + 3) % 7 + 1 + 6 = (z + 3) % 7 + 7 * 1 := by ring
    rw [h4, Int.add_mul_emod_self_left, Int.emod_eq_of_lt h0 h1]
  unfold dayOfWeek at hm
  unfold releaseStartFromBeta1 dayOfWeek
  rw [h3]
  have h5 : z - (z + 3) % 7 + 3 = 7 * ((z + 3) / 7) := by omega
  refine ⟨rfl, ?_, by omega, by omega, by decide, by decide⟩
  rw [h5, Int.mul_emod_right]
  omega

/-- Witness for C6: instantiated at `beta_1 = 2024-03-20` with the Monday
`2024-03-18`, giving the concrete derivation of the preceding Monday. -/
theorem releaseStartFromBeta1_most_recent_monday_witness :
    releaseStartFromBeta1 (daysFromCivil 2024 3 20) = daysFromCivil 2024 3 18 :=
  (releaseStartFromBeta1_most_recent_monday (daysFromCivil 2024 3 20)
    (daysFromCivil 2024 3 18) (by decide) (by decide)).2.2.2.2.2

/-- Helper: membership in the missing list of the classifier loop. -/
theorem mem_classifyStrings_fst (msgDates : String → Int)
    (releaseStart betaStart now : Int) (ks : List String) (k : String) :
    k ∈ (classifyStrings msgDates releaseStart betaStart now ks).1 ↔
      k ∈ ks ∧ IsMissingString (msgDates k) releaseStart betaStart now := by
  induction ks with
  | nil => simp [classifyStrings]
  | cons a as ih =>
    simp only [classifyStrings, List.mem_cons]
    by_cases hc : IsMissingString (msgDates a) releaseStart betaStart now
    · rw [if_pos hc]
      simp only [List.mem_cons, ih]
      constructor
      · rintro (rfl | ⟨hk, hcond⟩)
        · exact ⟨Or.inl rfl, hc⟩
        · exact ⟨Or.inr hk, hcond⟩
      · rintro ⟨rfl | hk, hcond⟩
        · exact Or.inl rfl
        · exact Or.inr ⟨hk, hcond⟩
    · rw [if_neg hc]
      rw [ih]
      constructor
      · rintro ⟨hk, hcond⟩
        exact ⟨Or.inr hk, hcond⟩
      · rintro ⟨rfl | hk, hcond⟩
        · exact absurd hcond hc
        · exact ⟨hk, hcond⟩

/-- Helper: membership in the pending list of the classifier loop. -/
theorem mem_classifyStrings_snd (msgDates : String → Int)
    (releaseStart betaStart now : Int) (ks : List String) (k : String) :
    k ∈ (classifyStrings msgDates releaseStart betaStart now ks).2 ↔
      k ∈ ks ∧ ¬ IsMissingString (msgDates k) releaseStart betaStart now := by
  induction ks with
  | nil => simp [classifyStrings]
  | cons a as ih =>
    simp only [classifyStrings, List.mem_cons]
    by_cases hc : IsMissingString (msgDates a) releaseStart betaStart now
    · rw [if_pos hc]
      rw [ih]
      constructor
      · rintro ⟨hk, hcond⟩
        exact ⟨Or.inr hk, hcond⟩
      · rintro ⟨rfl | hk, hcond⟩
        · exact absurd hc hcond
        · exact ⟨hk, hcond⟩
    · rw [if_neg hc]
      simp only [List.mem_cons, ih]
      constructor
      · rintro (rfl | ⟨hk, hcond⟩)
        · exact ⟨Or.inl rfl, hc⟩
        · exact ⟨Or.inr hk, hcond⟩
      · rintro ⟨rfl | hk, hcond⟩
        · exact Or.inl rfl
        · exact Or.inr ⟨hk, hcond⟩

/-- C2 (amended).  A missing key of the tracked file is classified
missing exactly when its introduction date is strictly before
`releaseStart`, or its introduction date *differs from* `betaStart`
(the source uses `Temporal.PlainDate.compare(introducedDate, betaStart)`
as a truthy value, so -1 counts as well as 1) while more than three
weeks have elapsed from `betaStart` to `now`; in every other case it is
classified pending. -/
theorem classifyStrings_missing_iff (msgDates : String → Int)
    (releaseStart betaStart now : Int) (ks : List String) (k : String) :
    (k ∈ (classifyStrings msgDates releaseStart betaStart now ks).1 ↔
      k ∈ ks ∧ (msgDates k < releaseStart ∨
        (msgDates k ≠ betaStart ∧ 21 < now - betaStart))) ∧
    (k ∈ (classifyStrings msgDates releaseStart betaStart now ks).2 ↔
      k ∈ ks ∧ ¬(msgDates k < releaseStart ∨
        (msgDates k ≠ betaStart ∧ 21 < now - betaStart))) := by
  rw [mem_classifyStrings_fst, mem_classifyStrings_snd]
  unfold IsMissingString
  exact ⟨Iff.rfl, Iff.rfl⟩

/-- Witness for C2: a key introduced before `releaseStart` lands in the
missing list. -/
theorem classifyStrings_missing_iff_witness :
    "key-a" ∈ (classifyStrings (fun _ => 0) 1 5 30 ["key-a"]).1 :=
  ((classifyStrings_missing_iff (fun _ => 0) 1 5 30 ["key-a"] "key-a").1).mpr
    (by decide)

/-- Counterexample for C2 as stated: a key introduced 2024-01-15, with
`releaseStart = 2024-01-01`, `betaStart = 2024-02-01`, `now =
2024-03-01`.  The introduction date is on or after `releaseStart` and
strictly *before* `betaStart`, so the spec's condition classifies it
pending, but the code classifies it missing (the truthy `compare` call
only tests that the dates differ). -/
theorem classifyStrings_spec_condition_cex :
    classifyStrings (fun _ => daysFromCivil 2024 1 15) (daysFromCivil 2024 1 1)
      (daysFromCivil 2024 2 1) (daysFromCivil 2024 3 1) ["newtab-key"] =
      (["newtab-key"], []) ∧
    ¬ specMissingCondition (daysFromCivil 2024 1 15) (daysFromCivil 2024 1 1)
      (daysFromCivil 2024 2 1) (daysFromCivil 2024 3 1) := by
  decide

/-- C3 (amended).  With `betaStart = 2024-01-01` and a key introduced
2024-01-15 (on or after `releaseStart`): at `now = 2024-01-23` (22 days,
exceeding the 3-week threshold) the key is missing; at `now =
2024-01-22` the elapsed time is exactly 3 weeks, which does not exceed
the threshold, so the key is pending; at `now = 2024-01-10` it is
pending. -/
theorem classifyStrings_threshold_edge (releaseStart : Int)
    (h : releaseStart ≤ daysFromCivil 2024 1 15) :
    classifyStrings (fun _ => daysFromCivil 2024 1 15) releaseStart
      (daysFromCivil 2024 1 1) (daysFromCivil 2024 1 23) ["k"] = (["k"], []) ∧
    classifyStrings (fun _ => daysFromCivil 2024 1 15) releaseStart
      (daysFromCivil 2024 1 1) (daysFromCivil 2024 1 22) ["k"] = ([], ["k"]) ∧
    classifyStrings (fun _ => daysFromCivil 2024 1 15) releaseStart
      (daysFromCivil 2024 1 1) (daysFromCivil 2024 1 10) ["k"] = ([], ["k"]) := by
  have e01 : daysFromCivil 2024 1 1 = 19723 := by decide
  have e10 : daysFromCivil 2024 1 10 = 19732 := by decide
  have e15 : daysFromCivil 2024 1 15 = 19737 := by decide
  have e22 : daysFromCivil 2024 1 22 = 19744 := by decide
  have e23 : daysFromCivil 2024 1 23 = 19745 := by decide
  simp only [e01, e10, e15, e22, e23] at h ⊢
  refine ⟨?_, ?_, ?_⟩ <;>
    · simp only [classifyStrings]
      split_ifs with hc <;> first
        | rfl
        | (exfalso; unfold IsMissingString at hc; omega)

/-- Witness for C3: instantiated at `releaseStart = 2024-01-01`. -/
theorem classifyStrings_threshold_edge_witness :
    classifyStrings (fun _ => daysFromCivil 2024 1 15) (daysFromCivil 2024 1 1)
      (daysFromCivil 2024 1 1) (daysFromCivil 2024 1 23) ["k"] = (["k"], []) :=
  (classifyStrings_threshold_edge (daysFromCivil 2024 1 1) (by decide)).1

/-- Counterexample for C3 as stated: at `now = 2024-01-22` the elapsed
time since `betaStart = 2024-01-01` is exactly 21 days, which does not
*exceed* the 3-week threshold, so the code classifies the key introduced
2024-01-15 as pending, not missing as the claim states. -/
theorem classifyStrings_threshold_edge_cex :
    classifyStrings (fun _ => daysFromCivil 2024 1 15) (daysFromCivil 2024 1 1)
      (daysFromCivil 2024 1 1) (daysFromCivil 2024 1 22) ["k"] = ([], ["k"]) := by
  decide

/-- C4.  A key introduced strictly between `releaseStart` and
`betaStart` is pending whenever at most three weeks have elapsed from
`betaStart` to `now`, and missing once the three-week threshold is
exceeded — date ordering alone never makes it missing. -/
theorem classifyStrings_between_release_and_beta (msgDates : String → Int)
    (releaseStart betaStart now : Int) (ks : List String) (k : String)
    (hmem : k ∈ ks) (h1 : releaseStart < msgDates k) (h2 : msgDates k < betaStart) :
    (now - betaStart ≤ 21 →
      k ∈ (classifyStrings msgDates releaseStart betaStart now ks).2 ∧
      k ∉ (classifyStrings msgDates releaseStart betaStart now ks).1) ∧
    (21 < now - betaStart →
      k ∈ (classifyStrings msgDates releaseStart betaStart now ks).1 ∧
      k ∉ (classifyStrings msgDates releaseStart betaStart now ks).2) := by
  constructor
  · intro hn
    constructor
    · exact (mem_classifyStrings_snd msgDates releaseStart betaStart now ks k).mpr
        ⟨hmem, by unfold IsMissingString; omega⟩
    · intro hin
      have hcond :=
        ((mem_classifyStrings_fst msgDates releaseStart betaStart now ks k).mp hin).2
      unfold IsMissingString at hcond
      omega
  · intro hn
    constructor
    · exact (mem_classifyStrings_fst msgDates releaseStart betaStart now ks k).mpr
        ⟨hmem, by unfold IsMissingString; omega⟩
    · intro hin
      have hcond :=
        ((mem_classifyStrings_snd msgDates releaseStart betaStart now ks k).mp hin).2
      unfold IsMissingString at hcond
      omega

/-- Witness for C4: a key introduced between the two dates, 10 days into
the beta cycle, is pending. -/
theorem classifyStrings_between_release_and_beta_witness :
    "k" ∈ (classifyStrings (fun _ => 5) 0 10 20 ["k"]).2 ∧
    "k" ∉ (classifyStrings (fun _ => 5) 0 10 20 ["k"]).1 :=
  (classifyStrings_between_release_and_beta (fun _ => 5) 0 10 20 ["k"] "k"
    (by decide) (by decide) (by decide)).1 (by decide)

/-- Helper: in a pair list whose first components are nodup, a key
determines its associated value. -/
theorem nodup_fst_unique {α β : Type} {l : List (α × β)}
    (h : (l.map Prod.fst).Nodup) {a : α} {b1 b2 : β}
    (h1 : (a, b1) ∈ l) (h2 : (a, b2) ∈ l) : b1 = b2 := by
  induction l with
  | nil => simp at h1
  | cons x xs ih =>
    simp only [List.map_cons, List.nodup_cons] at h
    rcases List.mem_cons.mp h1 with hx1 | hx1 <;>
      rcases List.mem_cons.mp h2 with hx2 | hx2
    · exact (Prod.ext_iff.mp (hx1.trans hx2.symm)).2
    · exfalso
      apply h.1
      have ha : a ∈ List.map Prod.fst xs := List.mem_map.mpr ⟨(a, b2), hx2, rfl⟩
      rw [← hx1]
      exact ha
    · exfalso
      apply h.1
      have ha : a ∈ List.map Prod.fst xs := List.mem_map.mpr ⟨(a, b1), hx1, rfl⟩
      rw [← hx2]
      exact ha
    · exact ih h.2 hx1 hx2

/-- C5 (amended).  For every locale whose report carries a missing-key
list for the tracked file, the output contains an entry whose missing
and pending lists partition that list (set union equals it, intersection
empty); locales whose report has *no* list for the tracked file (the
optional-chain lookup is `undefined`) are omitted.  A locale with a
present-but-empty list is, however, included — an empty array is truthy
in JavaScript — which is what refutes the claim as stated. -/
theorem localesReport_partition (rep : LocalesReport)
    (releaseStart betaStart now : Int) (loc : String) (keys : List String)
    (hnd : (rep.locales.map Prod.fst).Nodup)
    (hmem : (loc, some keys) ∈ rep.locales) :
    (∃ e ∈ localesReport rep releaseStart betaStart now,
      e.1 = loc ∧
      (∀ k, (k ∈ e.2.1 ∨ k ∈ e.2.2) ↔ k ∈ keys) ∧
      (∀ k, k ∈ e.2.1 → k ∈ e.2.2 → False)) ∧
    (∀ loc2, (loc2, (none : Option (List String))) ∈ rep.locales →
      ∀ e ∈ localesReport rep releaseStart betaStart now, e.1 ≠ loc2) := by
  constructor
  · refine ⟨(loc, classifyStrings rep.message_dates releaseStart betaStart now keys),
      ?_, rfl, ?_, ?_⟩
    · apply List.mem_filterMap.mpr
      exact ⟨(loc, some keys), hmem, rfl⟩
    · intro k
      rw [mem_classifyStrings_fst, mem_classifyStrings_snd]
      by_cases hc : IsMissingString (rep.message_dates k) releaseStart betaStart now
      · simp [hc]
      · simp [hc]
    · intro k hk1 hk2
      have hc1 := (mem_classifyStrings_fst rep.message_dates releaseStart betaStart
        now keys k).mp hk1
      have hc2 := (mem_classifyStrings_snd rep.message_dates releaseStart betaStart
        now keys k).mp hk2
      exact hc2.2 hc1.2
  · intro loc2 hnone e hemem heq
    obtain ⟨p, hp, hfp⟩ := List.mem_filterMap.mp hemem
    obtain ⟨ks2, hks2, hks2e⟩ := Option.map_eq_some'.mp hfp
    have hp1 : p.1 = loc2 := by
      rw [← hks2e] at heq
      exact heq
    have hpl : (loc2, some ks2) ∈ rep.locales := by
      have : p = (loc2, some ks2) := by
        rw [← hp1, ← hks2]
      rw [← this]
      exact hp
    exact Option.noConfusion (nodup_fst_unique hnd hpl hnone)

/-- Witness for C5: a two-locale report where "de" has one missing key
and "fr" has no list for the tracked file. -/
theorem localesReport_partition_witness :
    ∃ e ∈ localesReport ⟨[("de", some ["k1"]), ("fr", none)], fun _ => 0⟩ 1 0 0,
      e.1 = "de" ∧
      (∀ k, (k ∈ e.2.1 ∨ k ∈ e.2.2) ↔ k ∈ ["k1"]) ∧
      (∀ k, k ∈ e.2.1 → k ∈ e.2.2 → False) :=
  (localesReport_partition ⟨[("de", some ["k1"]), ("fr", none)], fun _ => 0⟩ 1 0 0
    "de" ["k1"] (by decide) (by decide)).1

/-- Counterexample for C5 as stated: a locale whose missing-key list for
the tracked file is present but empty has no missing keys, yet it is not
omitted from the result — `if (missingOrPendingStrings)` is true for an
empty array. -/
theorem localesReport_empty_list_not_omitted :
    localesReport ⟨[("de", some [])], fun _ => 0⟩ 0 0 0 = [("de", ([], []))] := by
  decide

/-- Helper: reading back the key just written to the store. -/
theorem store_set_get (s : Store) (k v : String) : (s.set k v).get k = some v := by
  unfold Store.get Store.set
  rw [List.find?_cons_of_pos _ (by simp)]
  rfl

/-- Helper: a resolver call that misses the cache fetches once and
writes through. -/
theorem getHgSha_miss (network : String → String) (s : Store) (g : String)
    (h : truthyOpt (s.get ("git2hg:" ++ g)) = false) :
    getHgSha network s g =
      ⟨network g, s.set ("git2hg:" ++ g) (network g), 1⟩ := by
  simp only [getHgSha]
  rw [if_neg]
  simp [h]

/-- Helper: a resolver call that hits a truthy cache entry returns it
without fetching or writing. -/
theorem getHgSha_hit (network : String → String) (s : Store) (g v : String)
    (h : s.get ("git2hg:" ++ g) = some v) (hv : v ≠ "") :
    getHgSha network s g = ⟨v, s, 0⟩ := by
  simp only [getHgSha]
  rw [h]
  rw [if_pos]
  · rfl
  · simp [truthyOpt]
    exact hv

/-- Helper: `getGitSha` cache-miss behaviour. -/
theorem getGitSha_miss (network : String → String) (s : Store) (hg : String)
    (h : truthyOpt (s.get ("hg2git:" ++ hg)) = false) :
    getGitSha network s hg =
      ⟨network hg, s.set ("hg2git:" ++ hg) (network hg), 1⟩ := by
  simp only [getGitSha]
  rw [if_neg]
  simp [h]

/-- Helper: `getGitSha` cache-hit behaviour. -/
theorem getGitSha_hit (network : String → String) (s : Store) (hg v : String)
    (h : s.get ("hg2git:" ++ hg) = some v) (hv : v ≠ "") :
    getGitSha network s hg = ⟨v, s, 0⟩ := by
  simp only [getGitSha]
  rw [h]
  rw [if_pos]
  · rfl
  · simp [truthyOpt]
    exact hv

/-- C7 (amended).  In either direction, starting from a cache miss and
provided the conversion service's value is non-empty (truthy), the first
call fetches exactly once and writes the value to the cache before
returning it, and a second call with the same identifier fetches zero
times and returns the identical value. -/
theorem resolver_idempotent (netG netH : String → String) (s : Store)
    (g hg : String)
    (hmissG : truthyOpt (s.get ("git2hg:" ++ g)) = false) (hneG : netG g ≠ "")
    (hmissH : truthyOpt (s.get ("hg2git:" ++ hg)) = false) (hneH : netH hg ≠ "") :
    ((getHgSha netG s g).networkCalls = 1 ∧
     (getHgSha netG s g).store.get ("git2hg:" ++ g) = some (netG g) ∧
     (getHgSha netG (getHgSha netG s g).store g).networkCalls = 0 ∧
     (getHgSha netG (getHgSha netG s g).store g).value = (getHgSha netG s g).value) ∧
    ((getGitSha netH s hg).networkCalls = 1 ∧
     (getGitSha netH s hg).store.get ("hg2git:" ++ hg) = some (netH hg) ∧
     (getGitSha netH (getGitSha netH s hg).store hg).networkCalls = 0 ∧
     (getGitSha netH (getGitSha netH s hg).store hg).value = (getGitSha netH s hg).value) := by
  have h1 := getHgSha_miss netG s g hmissG
  have h2 : (getHgSha netG s g).store.get ("git2hg:" ++ g) = some (netG g) := by
    rw [h1]
    exact store_set_get s _ _
  have h3 := getHgSha_hit netG (getHgSha netG s g).store g (netG g) h2 hneG
  have h4 := getGitSha_miss netH s hg hmissH
  have h5 : (getGitSha netH s hg).store.get ("hg2git:" ++ hg) = some (netH hg) := by
    rw [h4]
    exact store_set_get s _ _
  have h6 := getGitSha_hit netH (getGitSha netH s hg).store hg (netH hg) h5 hneH
  exact ⟨⟨by rw [h1], h2, by rw [h3], by rw [h3, h1]⟩,
    ⟨by rw [h4], h5, by rw [h6], by rw [h6, h4]⟩⟩

/-- Witness for C7: an empty store, services answering fixed non-empty
hashes. -/
theorem resolver_idempotent_witness :
    (getHgSha (fun _ => "aaa") ⟨[]⟩ "abc").networkCalls = 1 ∧
    (getHgSha (fun _ => "aaa")
      (getHgSha (fun _ => "aaa") ⟨[]⟩ "abc").store "abc").networkCalls = 0 :=
  ⟨(resolver_idempotent (fun _ => "aaa") (fun _ => "bbb") ⟨[]⟩ "abc" "def"
      (by decide) (by decide) (by decide) (by decide)).1.1,
   (resolver_idempotent (fun _ => "aaa") (fun _ => "bbb") ⟨[]⟩ "abc" "def"
      (by decide) (by decide) (by decide) (by decide)).1.2.2.1⟩

/-- Counterexample for C7 as stated: when the conversion service resolves
an identifier to the empty string, the value is cached but the cached
empty string is falsy, so the second call is *not* served from the cache
and fetches again — two network calls, not one. -/
theorem resolver_empty_value_cex :
    (getHgSha (fun _ => "") ⟨[]⟩ "abc").networkCalls +
      (getHgSha (fun _ => "")
        (getHgSha (fun _ => "") ⟨[]⟩ "abc").store "abc").networkCalls = 2 := by
  decide

/-- C8.  A payload whose `results` field is absent or an empty list, or
whose `job_property_names` field is absent, yields the empty job list
(the function is total, so no error is raised). -/
theorem transformJobsData_degenerate {α : Type} (results : Option (List (List α)))
    (ps : Option (List String))
    (h : results = none ∨ results = some [] ∨ ps = none) :
    transformJobsData results ps = [] := by
  rcases h with h | h | h
  · subst h
    cases ps <;> rfl
  · subst h
    cases ps <;> rfl
  · subst h
    cases results <;> rfl

/-- Witness for C8: a push with zero matching trainhop jobs (empty rows
list) produces an empty job list. -/
theorem transformJobsData_degenerate_witness :
    transformJobsData (α := Nat) (some []) (some ["platform"]) = [] :=
  transformJobsData_degenerate (some []) (some ["platform"]) (Or.inr (Or.inl rfl))

/-- Helper: the job object has one entry per field name. -/
theorem buildJobObject_length {α : Type} (row : List α) :
    ∀ (ps : List String) (i : Nat), (buildJobObject row i ps).length = ps.length := by
  intro ps
  induction ps with
  | nil =>
    intro i
    rfl
  | cons p ps ih =>
    intro i
    simp [buildJobObject, ih]

/-- Helper: the j-th entry of the job object pairs the j-th field name
with the row value at the running index plus j. -/
theorem buildJobObject_get {α : Type} (row : List α) :
    ∀ (ps : List String) (i j : Nat),
      (buildJobObject row i ps).get? j =
        (ps.get? j).map fun p => (p, row.get? (i + j)) := by
  intro ps
  induction ps with
  | nil =>
    intro i j
    simp [buildJobObject]
  | cons p ps ih =>
    intro i j
    cases j with
    | zero => simp [buildJobObject]
    | succ j =>
      have hidx : i + 1 + j = i + (j + 1) := by omega
      simp only [buildJobObject, List.get?_cons_succ]
      rw [ih (i + 1) j, hidx]

/-- C10.  For a payload with field names `ps` and a row shorter than
`ps`, the aggregator still produces a record for the row: the record is
in the output, it has one entry per field name, entry `j` maps the
`j`-th field name to the row value at index `j`, and entries at indices
past the row's length carry `none` (JavaScript `undefined`) — no
truncation and no error. -/
theorem transformJobsData_short_row {α : Type} (ps : List String)
    (rows : List (List α)) (row : List α)
    (hmem : row ∈ rows) (hshort : row.length < ps.length) :
    buildJobObject row 0 ps ∈ transformJobsData (some rows) (some ps) ∧
    (buildJobObject row 0 ps).length = ps.length ∧
    (∀ j p, ps.get? j = some p →
      (buildJobObject row 0 ps).get? j = some (p, row.get? j)) ∧
    (∀ j p, ps.get? j = some p → row.length ≤ j →
      (buildJobObject row 0 ps).get? j = some (p, none)) := by
  refine ⟨?_, buildJobObject_length row ps 0, ?_, ?_⟩
  · simp only [transformJobsData]
    exact List.mem_map_of_mem _ hmem
  · intro j p hp
    rw [buildJobObject_get row ps 0 j, hp]
    simp
  · intro j p hp hlen
    rw [buildJobObject_get row ps 0 j, hp]
    simp only [Nat.zero_add, Option.map_some']
    rw [List.get?_eq_none.mpr hlen]

/-- Witness for C10: field names `["a", "b"]` against the one-element
row `[5]`: the record appears in the output and maps `"b"` to `none`. -/
theorem transformJobsData_short_row_witness :
    buildJobObject [5] 0 ["a", "b"] ∈
      transformJobsData (some [[5]]) (some ["a", "b"]) ∧
    (buildJobObject [5] 0 ["a", "b"]).get? 1 = some ("b", (none : Option Nat)) :=
  ⟨(transformJobsData_short_row ["a", "b"] [[5]] [5] (by decide) (by decide)).1,
   (transformJobsData_short_row ["a", "b"] [[5]] [5] (by decide) (by decide)).2.2.2
     1 "b" (by decide) (by decide)⟩

/-- C9.  When a merge date is `null` and the operator cancels the
prompt, the orchestrator stores a "dates required" error result that
still carries both resolved identifiers and no revision data (so the
locales report, and with it the locale classifier, is never produced);
a syntactically invalid prompt response does not terminate the
assessment — the prompt loop simply asks again. -/
theorem checkTrainStatus_abort (gitSha hgSha : String) (rd : RevisionData)
    (br rr : List (Option String)) (b bad : String)
    (script : List (Option String)) (hbad : isValidDate bad = false) :
    (rd.betaStartDate = none →
      checkTrainStatus gitSha hgSha rd (none :: br) rr =
        some ⟨gitSha, hgSha,
          "Error: Beta start date required for locales analysis", none⟩) ∧
    (checkTrainStatus gitSha hgSha ⟨some b, none⟩ br (none :: rr) =
      some ⟨gitSha, hgSha,
        "Error: Release start date required for locales analysis", none⟩) ∧
    (promptForDate (some bad :: script) = promptForDate script) := by
  refine ⟨?_, rfl, ?_⟩
  · intro hb
    rcases rd with ⟨bsd, rsd⟩
    have hb2 : bsd = none := hb
    subst hb2
    rfl
  · simp [promptForDate, hbad]

/-- Witness for C9: both dates `null`, the operator cancels the beta
prompt; and an invalid response `"not-a-date"` just re-prompts. -/
theorem checkTrainStatus_abort_witness :
    checkTrainStatus "abc" "def" ⟨none, none⟩ [none] [] =
      some ⟨"abc", "def",
        "Error: Beta start date required for locales analysis", none⟩ ∧
    promptForDate [some "not-a-date", none] = promptForDate [none] :=
  ⟨(checkTrainStatus_abort "abc" "def" ⟨none, none⟩ [] [] "x" "not-a-date" [none]
      (by decide)).1 rfl,
   (checkTrainStatus_abort "abc" "def" ⟨none, none⟩ [] [] "x" "not-a-date" [none]
      (by decide)).2.2⟩
